import Mathlib

/-!
Verification of the woodlands scraper/normalizer repository.

The Python sources (appender.py, map_woodlands.py, locations.py, app.py) are
shallowly embedded below.  Strings are `String`/`List Char`; Python floats are
modelled as exact rationals `ℚ` (all numeric literals involved are decimal);
`math.sqrt`, the trigonometric functions and distances are modelled over `ℝ`;
Python `None` / pandas `NaN` is `Option.none`.  The regular expressions used
by the sources are small and use pairwise-disjoint character classes, so the
leftmost greedy scan implemented here coincides with Python `re.search`
semantics for them.  Matchers return the captured digit groups as character
lists; the `float(...)` conversions applied by the sources to those groups are
modelled by `digitsToNat` / `numVal` / `fracVal` at the use sites.
-/

namespace Woods

/-- Python `\s` / `str.strip()` whitespace (ASCII range). -/
def isSpaceCh (c : Char) : Bool :=
  c = ' ' || c = '\t' || c = '\n' || c = '\x0d' || c = '\x0b' || c = '\x0c'

/-- Python `\w` word characters for the strings this program manipulates:
ASCII alphanumerics, underscore, and the vulgar-fraction glyphs (which Python
classifies as alphanumeric, hence word characters). -/
def isWordCh (c : Char) : Bool :=
  c.isAlphanum || c = '_' ||
  c = '½' || c = '¼' || c = '¾' || c = '⅓' || c = '⅔'

def wordOpt : Option Char → Bool
  | none => false
  | some c => isWordCh c

/-- Python `\b`: word-ness differs on the two sides of the position. -/
def boundaryB (a b : Option Char) : Bool := wordOpt a != wordOpt b

/-- If `pat` is a literal prefix of `l`, return the rest of `l`. -/
def dropLit : List Char → List Char → Option (List Char)
  | [], l => some l
  | _ :: _, [] => none
  | c :: cs, d :: ds => if d = c then dropLit cs ds else none

/-- Python `str.replace(pat, repl)`: replace all non-overlapping occurrences,
left to right, never rescanning the replacement.  `fuel ≥ length` suffices
because every step consumes at least one character (all patterns used are
nonempty). -/
def replaceAll (pat repl : List Char) : Nat → List Char → List Char
  | 0, l => l
  | _ + 1, [] => []
  | fuel + 1, c :: cs =>
    match dropLit pat (c :: cs) with
    | some rest => repl ++ replaceAll pat repl fuel rest
    | none => c :: replaceAll pat repl fuel cs

/-- Python `str.strip()`. -/
def stripWs (l : List Char) : List Char :=
  ((l.dropWhile isSpaceCh).reverse.dropWhile isSpaceCh).reverse

/-- Python substring containment (`pat in s`). -/
def containsSub (pat : List Char) : List Char → Bool
  | [] => pat.isEmpty
  | c :: cs => pat.isPrefixOf (c :: cs) || containsSub pat cs

/-- Numeric value of a run of ASCII digits (Python `int`/`float` on a pure
digit string). -/
def digitsToNat (l : List Char) : Nat :=
  l.foldl (fun a c => 10 * a + (c.toNat - 48)) 0

/-- Python `float` on a matched group `<ip>(.<fp>)?` (`fp = []` when the
optional fractional part is absent). -/
def numVal (ip fp : List Char) : ℚ :=
  (digitsToNat ip : ℚ) + (digitsToNat fp : ℚ) / (10 : ℚ) ^ fp.length

/-- Python `float` on a matched pure fraction `0?.<d>` (e.g. "0.5", ".5"). -/
def fracVal (d : List Char) : ℚ :=
  (digitsToNat d : ℚ) / (10 : ℚ) ^ d.length

/-- Match `(\d+)\s+(\d+)\s*/\s*(\d+)` anchored at the head of `l`
(the ASCII mixed fraction of appender.py line 28), returning the three
captured digit groups. -/
def matchMixedAt (l : List Char) : Option (List Char × List Char × List Char) :=
  let (d1, r1) := l.span Char.isDigit
  if d1.isEmpty then none else
  let (s1, r2) := r1.span isSpaceCh
  if s1.isEmpty then none else
  let (d2, r3) := r2.span Char.isDigit
  if d2.isEmpty then none else
  match (r3.span isSpaceCh).2 with
  | '/' :: r5 =>
    let (d3, _) := ((r5.span isSpaceCh).2).span Char.isDigit
    if d3.isEmpty then none else some (d1, d2, d3)
  | _ => none

/-- `re.search` of the mixed-fraction pattern: leftmost match. -/
def findMixed : List Char → Option (List Char × List Char × List Char)
  | [] => none
  | c :: cs =>
    match matchMixedAt (c :: cs) with
    | some t => some t
    | none => findMixed cs

/-- Match `\d+(?:\.\d+)?` anchored at the head of `l`; returns the captured
group as (integer digits, fraction digits) and the rest of the input. -/
def matchNumAt (l : List Char) : Option ((List Char × List Char) × List Char) :=
  let (d1, r1) := l.span Char.isDigit
  if d1.isEmpty then none else
  match r1 with
  | '.' :: r2 =>
    let (d2, r3) := r2.span Char.isDigit
    if d2.isEmpty then some ((d1, []), r1) else some ((d1, d2), r3)
  | _ => some ((d1, []), r1)

/-- Match the captured fraction `0?\.\d+` (when `zeroOpt`) or `0\.\d+`
(otherwise) anchored at the head of `l`; returns the post-dot digits. -/
def fracAt (zeroOpt : Bool) (l : List Char) : Option (List Char) :=
  match l with
  | '0' :: '.' :: rest =>
    let (d, _) := rest.span Char.isDigit
    if d.isEmpty then none else some d
  | '.' :: rest =>
    if zeroOpt then
      let (d, _) := rest.span Char.isDigit
      if d.isEmpty then none else some d
    else none
  | _ => none

/-- Match `(\d+(?:\.\d+)?)\s*(?:\+\s*(0?\.\d+))?` anchored at the head of `l`
(with `0\.\d+` instead when `zeroOpt = false`): base number group plus
optional additive-fraction group. -/
def basePlusAt (zeroOpt : Bool) (l : List Char) :
    Option ((List Char × List Char) × Option (List Char)) :=
  match matchNumAt l with
  | none => none
  | some (g1, r1) =>
    match (r1.span isSpaceCh).2 with
    | '+' :: r3 =>
      match fracAt zeroOpt ((r3.span isSpaceCh).2) with
      | some d => some (g1, some d)
      | none => some (g1, none)
    | _ => some (g1, none)

/-- `re.search` of the base-plus-fraction pattern: the pattern matches exactly
at positions starting with a digit, so the leftmost match starts at the first
digit of the string. -/
def findBasePlus (zeroOpt : Bool) :
    List Char → Option ((List Char × List Char) × Option (List Char))
  | [] => none
  | c :: cs =>
    if c.isDigit then basePlusAt zeroOpt (c :: cs) else findBasePlus zeroOpt cs

/-- `re.search(r"(-?\d+(?:\.\d+)?)", s)`: leftmost signed decimal number,
as (sign, integer digits, fraction digits). -/
def findSigned : List Char → Option (Bool × List Char × List Char)
  | [] => none
  | c :: cs =>
    if c.isDigit then (matchNumAt (c :: cs)).map (fun p => (false, p.1))
    else
      if c = '-' then
        match cs with
        | [] => none
        | d :: _ =>
          if d.isDigit then (matchNumAt cs).map (fun p => (true, p.1))
          else findSigned cs
      else findSigned cs

/-- Value of a signed decimal group, as Python `float` produces it. -/
def signedVal (g : Bool × List Char × List Char) : ℚ :=
  if g.1 then -(numVal g.2.1 g.2.2) else numVal g.2.1 g.2.2

/-- Match `-?\d+\.\d+` (fractional part required) anchored at the head. -/
def decDotAt (l : List Char) : Option ((List Char × List Char) × List Char) :=
  let (d1, r1) := l.span Char.isDigit
  if d1.isEmpty then none else
  match r1 with
  | '.' :: r2 =>
    let (d2, r3) := r2.span Char.isDigit
    if d2.isEmpty then none else some ((d1, d2), r3)
  | _ => none

def signedDecAt (l : List Char) : Option ((Bool × List Char × List Char) × List Char) :=
  match l with
  | '-' :: rest => (decDotAt rest).map (fun p => ((true, p.1), p.2))
  | _ => (decDotAt l).map (fun p => ((false, p.1), p.2))

/-- Match `(-?\d+\.\d+)\s*,\s*(-?\d+\.\d+)` anchored at the head of `l`
(locations.py line 107). -/
def matchCoordAt (l : List Char) :
    Option ((Bool × List Char × List Char) × (Bool × List Char × List Char)) :=
  match signedDecAt l with
  | none => none
  | some (g1, r1) =>
    match (r1.span isSpaceCh).2 with
    | ',' :: r3 =>
      match signedDecAt ((r3.span isSpaceCh).2) with
      | some (g2, _) => some (g1, g2)
      | none => none
    | _ => none

/-- `re.search` of the coordinate-pair pattern: leftmost match. -/
def findCoordPair :
    List Char → Option ((Bool × List Char × List Char) × (Bool × List Char × List Char))
  | [] => none
  | c :: cs =>
    match matchCoordAt (c :: cs) with
    | some p => some p
    | none => findCoordPair cs

/-- The alternatives of `\b(about|approx(?:imately)?|over|just over|c\.)\b`
in backtracking order (`approximately` is tried before `approx` because the
inner optional group is greedy), each with its final character for the
trailing `\b` test. -/
def fillerAlts : List (List Char × Char) :=
  [("about".data, 't'), ("approximately".data, 'y'), ("approx".data, 'x'),
   ("over".data, 'r'), ("just over".data, 'r'), ("c.".data, '.')]

def tryOneFiller (alt : List Char) (lastc : Char) (l : List Char) :
    Option (Char × List Char) :=
  match dropLit alt l with
  | some rest =>
    if boundaryB (some lastc) rest.head? then some (lastc, rest) else none
  | none => none

/-- Try the filler alternatives at the current position (leading `\b` is
checked by the caller); on success returns the last matched character (the
`\b` context for the following position) and the rest of the input. -/
def tryFillerAt (l : List Char) : Option (Char × List Char) :=
  fillerAlts.foldl
    (fun acc p =>
      match acc with
      | some r => some r
      | none => tryOneFiller p.1 p.2 l)
    none

/-- `re.sub(r"\b(about|approx(?:imately)?|over|just over|c\.)\b", "", s)`
(appender.py line 20).  `prev` is the character before the current scan
position in the original string; each step consumes at least one character,
so `fuel = length` suffices. -/
def removeFillerAux : Nat → Option Char → List Char → List Char
  | 0, _, l => l
  | _ + 1, _, [] => []
  | fuel + 1, prev, c :: cs =>
    if boundaryB prev (some c) then
      match tryFillerAt (c :: cs) with
      | some (lastc, rest) => removeFillerAux fuel (some lastc) rest
      | none => c :: removeFillerAux fuel (some c) cs
    else c :: removeFillerAux fuel (some c) cs

def removeFiller (l : List Char) : List Char :=
  removeFillerAux l.length none l

/-- The FRACTIONS dict of both appender.py and map_woodlands.py, with each
value rendered exactly as Python's `str()` renders the corresponding float
(`str(1/3) = "0.3333333333333333"`, `str(2/3) = "0.6666666666666666"`). -/
def FRACTIONS : List (Char × List Char) :=
  [('½', "0.5".data), ('¼', "0.25".data), ('¾', "0.75".data),
   ('⅓', "0.3333333333333333".data), ('⅔', "0.6666666666666666".data)]

/-- Replace each vulgar-fraction glyph by `f" +{dec}"` (appender.py, when
`lead = true`) or `f"+{dec}"` (map_woodlands.py, when `lead = false`). -/
def fracSubst (lead : Bool) (l : List Char) : List Char :=
  FRACTIONS.foldl
    (fun s p =>
      replaceAll [p.1] ((if lead then [' '] else []) ++ ('+' :: p.2)) s.length s)
    l

namespace Appender

/-- Lines 18-25 of appender.py: lowercase, strip filler words, remove
"acres"/"acre", strip whitespace, then rewrite vulgar fractions as additive
decimal terms. -/
def preprocessSize (t : String) : List Char :=
  let s0 := t.data.map Char.toLower
  let s1 := removeFiller s0
  let s2 := replaceAll "acres".data [] s1.length s1
  let s3 := replaceAll "acre".data [] s2.length s2
  fracSubst true (stripWs s3)

/-- appender.py lines 35-44: the base-plus-fraction rule, then the simple
signed-float fallback. -/
def acresLaterRules (s : List Char) : Option ℚ :=
  match findBasePlus true s with
  | some (g1, fr) =>
    some (numVal g1.1 g1.2 + (match fr with | some d => fracVal d | none => 0))
  | none => (findSigned s).map signedVal

/-- appender.py lines 27-44: the mixed-fraction rule first (lines 28-33,
with a zero denominator replaced by 1), then the later rules. -/
def acresFromText (s : List Char) : Option ℚ :=
  match findMixed s with
  | some (g1, g2, g3) =>
    some ((digitsToNat g1 : ℚ) +
      (digitsToNat g2 : ℚ) /
        (if digitsToNat g3 = 0 then (1 : ℚ) else (digitsToNat g3 : ℚ)))
  | none => acresLaterRules s

/-- appender.py `parse_acres` (lines 14-44).  `none` input models a pandas
missing value (`pd.isna`); the three regex rules are tried in source order. -/
def parse_acres (text : Option String) : Option ℚ :=
  match text with
  | none => none
  | some t => acresFromText (preprocessSize t)

/-- appender.py line 12. -/
def ACRE_TO_M2 : ℚ := 4046.8564224

/-- appender.py line 71: `df["Size_m2"] = df["SizeAcres"] * ACRE_TO_M2`,
per row; a pandas missing value (`NaN`) propagates through multiplication. -/
def Size_m2 (sizeAcres : Option ℚ) : Option ℚ :=
  sizeAcres.map (fun a => a * ACRE_TO_M2)

/-- appender.py line 72:
`df["Size_m2_sqrt"] = df["Size_m2"].apply(lambda x: math.sqrt(x) if pd.notna(x) else None)`,
per row, with `math.sqrt` modelled by `Real.sqrt`. -/
noncomputable def Size_m2_sqrt (m2 : Option ℚ) : Option ℝ :=
  m2.map (fun x => Real.sqrt (x : ℝ))

end Appender

namespace MapWoodlands

/-- map_woodlands.py `parse_price_to_int` (lines 40-44):
`re.sub(r"[^\d]", "", str(s))` keeps exactly the digit characters; the digit
run is then read with `float`, and an empty run yields `None`. -/
def parse_price_to_int (s : Option String) : Option ℚ :=
  match s with
  | none => none
  | some t =>
    let digits := t.data.filter Char.isDigit
    if digits.isEmpty then none else some ((digitsToNat digits : ℚ))

/-- The preprocessing of map_woodlands.py `parse_acres` (lines 47-60): lowercase, drop the literal
substrings "about" and "approx", rewrite vulgar fractions as `+dec`, then
search `(\d+(?:\.\d+)?)\s*(?:\+\s*(0\.\d+))?` and fall back to
`(-?\d+(?:\.\d+)?)`.  Both regexes match iff the text contains a digit, so
the fallback branch is unreachable when the first search fails (in the source
it would even raise IndexError on `m.group(2)` there); it is modelled by the
value of the matched number. -/
def preprocessSizeDash (t : String) : List Char :=
  let s0 := t.data.map Char.toLower
  let s1 := replaceAll "about".data [] s0.length s0
  let s2 := replaceAll "approx".data [] s1.length s1
  fracSubst false s2

/-- The regex dispatch of map_woodlands.py `parse_acres` (lines 53-60). -/
def acresFromTextDash (s : List Char) : Option ℚ :=
  match findBasePlus false s with
  | some (g1, fr) =>
    some (numVal g1.1 g1.2 + (match fr with | some d => fracVal d | none => 0))
  | none => (findSigned s).map signedVal

def parse_acres (text : Option String) : Option ℚ :=
  match text with
  | none => none
  | some t => acresFromTextDash (preprocessSizeDash t)

/-- map_woodlands.py `haversine_miles` (lines 197-203), with `math`
trigonometry modelled over `ℝ`; `R = 3958.7613` miles and `math.radians x =
x * π / 180`. -/
noncomputable def radiansR (x : ℝ) : ℝ := x * (Real.pi / 180)

noncomputable def haversine_miles (lat1 lon1 lat2 lon2 : ℝ) : ℝ :=
  2 * 3958.7613 * Real.arcsin (Real.sqrt
    (Real.sin (radiansR (lat2 - lat1) / 2) ^ 2 +
     Real.cos (radiansR lat1) * Real.cos (radiansR lat2) *
       Real.sin (radiansR (lon2 - lon1) / 2) ^ 2))

/-- The accumulator loop of `annotate_min_distance_to_cities`
(map_woodlands.py lines 216-219): `md = d if (md is None or d < md) else md`
over the list of city coordinates, for one site at `(lat, lon)`. -/
noncomputable def minCityLoop (lat lon : ℝ) :
    List (ℝ × ℝ) → Option ℝ → Option ℝ
  | [], md => md
  | c :: rest, md =>
    minCityLoop lat lon rest
      (match md with
       | none => some (haversine_miles lat lon c.1 c.2)
       | some m =>
         if haversine_miles lat lon c.1 c.2 < m
         then some (haversine_miles lat lon c.1 c.2) else some m)

/-- map_woodlands.py `annotate_min_distance_to_cities` (lines 205-223),
restricted to a single site row: the `MinCityMiles` value computed for a site
at `(lat, lon)` given the (filtered) city coordinate list; an empty city set
short-circuits to `None` (lines 207-210). -/
noncomputable def annotate_min_distance_to_cities
    (lat lon : ℝ) (cities : List (ℝ × ℝ)) : Option ℝ :=
  if cities.isEmpty then none else minCityLoop lat lon cities none

end MapWoodlands

namespace Locations

/-- locations.py line 103: `t.lower().startswith("gps coordinates")`. -/
def startsWithGps (t : String) : Bool :=
  "gps coordinates".data.isPrefixOf (t.data.map Char.toLower)

/-- locations.py lines 100-106: `gps_text` is the text of the first `li`
whose lowercase form starts with "gps coordinates" (else `""`), and the
search space is `gps_text or page_text` (Python truthiness: the empty string
falls back to the whole page text). -/
def gpsSearchSpace (lis : List String) (pageText : String) : String :=
  let gps_text := (lis.find? startsWithGps).getD ""
  if gps_text.data.isEmpty then pageText else gps_text

/-- locations.py `extract_gps` (lines 96-112), on the list of `li` texts and
the whole-page text: returns the raw matched `gps_text` plus optional
latitude/longitude. -/
def extract_gps (lis : List String) (pageText : String) :
    String × Option ℚ × Option ℚ :=
  let gps_text := (lis.find? startsWithGps).getD ""
  match findCoordPair (gpsSearchSpace lis pageText).data with
  | some (g1, g2) => (gps_text, some (signedVal g1), some (signedVal g2))
  | none => (gps_text, none, none)

/-- locations.py `is_404` (lines 32-36): status code 404, or an `h1` whose
stripped text contains "error 404" case-insensitively.  `h1` is the text of
the page's first heading, `none` when the page has no `h1`. -/
def is_404 (status_code : Nat) (h1 : Option String) : Bool :=
  if status_code = 404 then true
  else
    match h1 with
    | none => false
    | some t => containsSub "error 404".data (t.data.map Char.toLower)

/-- One search-results page of the paginated crawl: its HTTP status, the text
of its first heading (if any), and the detail-page links of its cards. -/
structure SearchPage where
  status : Nat
  h1 : Option String
  links : List String
deriving DecidableEq

/-- The inner loop of locations.py `main` (lines 154-168): process the card
links of one page against the `seen` set, appending one record (keyed by its
URL) per new link whose scrape succeeds (`ok` models whether `scrape_detail`
raises).  Returns the updated `seen` set and record list. -/
def processLinks (ok : String → Bool) :
    List String → List String → List String → List String × List String
  | [], seen, rows => (seen, rows)
  | link :: rest, seen, rows =>
    if link ∈ seen then processLinks ok rest seen rows
    else
      processLinks ok rest (link :: seen)
        (if ok link then rows ++ [link] else rows)

/-- The pagination loop of locations.py `main` (lines 140-172): stop on a
404/end-of-results page or a page without cards, otherwise process the
page's links and continue.  Records are represented by their URL key. -/
def crawlPages (ok : String → Bool) :
    List SearchPage → List String → List String → List String
  | [], _, rows => rows
  | p :: rest, seen, rows =>
    if is_404 p.status p.h1 then rows
    else
      if p.links.isEmpty then rows
      else
        crawlPages ok rest (processLinks ok p.links seen rows).1
          (processLinks ok p.links seen rows).2

/-- locations.py `main`: the rows written to the CSV, identified by URL. -/
def crawl (ok : String → Bool) (pages : List SearchPage) : List String :=
  crawlPages ok pages [] []

end Locations

end Woods

open Woods

/-! ### Helper lemmas (shared across claims) -/

/-- When the mixed-fraction regex matches, `parse_acres` returns
`whole + num/den` with a zero denominator replaced by 1, regardless of the
later rules. -/
lemma parse_acres_mixed (t : String) (g1 g2 g3 : List Char)
    (h : findMixed (Appender.preprocessSize t) = some (g1, g2, g3)) :
    Appender.parse_acres (some t) =
      some ((digitsToNat g1 : ℚ) + (digitsToNat g2 : ℚ) /
        (if digitsToNat g3 = 0 then (1 : ℚ) else (digitsToNat g3 : ℚ))) := by
  show Appender.acresFromText (Appender.preprocessSize t) = _
  unfold Appender.acresFromText
  rw [h]

/-- When the mixed-fraction regex fails and the base-plus-fraction regex
matches, `parse_acres` returns the base number plus the optional additive
fraction. -/
lemma parse_acres_base (t : String) (ip fp : List Char) (fr : Option (List Char))
    (h1 : findMixed (Appender.preprocessSize t) = none)
    (h2 : findBasePlus true (Appender.preprocessSize t) = some ((ip, fp), fr)) :
    Appender.parse_acres (some t) = some (numVal ip fp + fr.elim 0 fracVal) := by
  show Appender.acresFromText (Appender.preprocessSize t) = _
  unfold Appender.acresFromText
  rw [h1]
  unfold Appender.acresLaterRules
  rw [h2]
  cases fr <;> rfl

/-- The dashboard fallback parser, when its first regex matches. -/
lemma parse_acres_dash_base (t : String) (ip fp : List Char) (fr : Option (List Char))
    (h : findBasePlus false (MapWoodlands.preprocessSizeDash t) = some ((ip, fp), fr)) :
    MapWoodlands.parse_acres (some t) = some (numVal ip fp + fr.elim 0 fracVal) := by
  show MapWoodlands.acresFromTextDash (MapWoodlands.preprocessSizeDash t) = _
  unfold MapWoodlands.acresFromTextDash
  rw [h]
  cases fr <;> rfl

/-! ### Claims -/

/-- C1: `parse_acres` (appender.py) maps "about 2 ½ acres" to 2.5,
"1 3/4 acres" to 1.75, the empty string (and a missing value) to `None`, and
"over 3 acres" to 3.0; the filler words "about", "approx", "approximately",
"over", "just over", "c." and the literal words "acre"/"acres" are handled
case-insensitively before numeric parsing, witnessed here on concrete inputs
for every filler word in both lower and mixed/upper case. -/
theorem claim_C1_parse_acres_examples :
    Appender.parse_acres (some "about 2 ½ acres") = some (2.5 : ℚ)
  ∧ Appender.parse_acres (some "1 3/4 acres") = some (1.75 : ℚ)
  ∧ Appender.parse_acres (some "") = none
  ∧ Appender.parse_acres none = none
  ∧ Appender.parse_acres (some "over 3 acres") = some (3 : ℚ)
  ∧ Appender.parse_acres (some "ABOUT 2 ½ ACRES") = some (2.5 : ℚ)
  ∧ Appender.parse_acres (some "Approx 7 acres") = some (7 : ℚ)
  ∧ Appender.parse_acres (some "approximately 7 ACRES") = some (7 : ℚ)
  ∧ Appender.parse_acres (some "Just Over 7 Acres") = some (7 : ℚ)
  ∧ Appender.parse_acres (some "c.7 acres") = some (7 : ℚ)
  ∧ Appender.parse_acres (some "OVER 3 Acres") = some (3 : ℚ) := by
  refine ⟨?_, ?_, by decide, rfl, ?_, ?_, ?_, ?_, ?_, ?_, ?_⟩
  · rw [parse_acres_base _ "2".data [] (some "5".data) (by decide) (by decide)]
    simp [numVal, fracVal, digitsToNat, Option.elim]
    norm_num
  · rw [parse_acres_mixed _ "1".data "3".data "4".data (by decide)]
    simp [digitsToNat]
    norm_num
  · rw [parse_acres_base _ "3".data [] none (by decide) (by decide)]
    simp [numVal, digitsToNat, Option.elim]
  · rw [parse_acres_base _ "2".data [] (some "5".data) (by decide) (by decide)]
    simp [numVal, fracVal, digitsToNat, Option.elim]
    norm_num
  · rw [parse_acres_base _ "7".data [] none (by decide) (by decide)]
    simp [numVal, digitsToNat, Option.elim]
  · rw [parse_acres_base _ "7".data [] none (by decide) (by decide)]
    simp [numVal, digitsToNat, Option.elim]
  · rw [parse_acres_base _ "7".data [] none (by decide) (by decide)]
    simp [numVal, digitsToNat, Option.elim]
  · rw [parse_acres_base _ "7".data [] none (by decide) (by decide)]
    simp [numVal, digitsToNat, Option.elim]
  · rw [parse_acres_base _ "3".data [] none (by decide) (by decide)]
    simp [numVal, digitsToNat, Option.elim]

/-- C2: whenever the stripped/preprocessed size text contains an ASCII mixed
fraction `<whole> <num>/<den>` (i.e. the mixed-fraction regex matches, with
digit groups `g1 g2 g3`), `parse_acres` returns `whole + num/den`, a zero
denominator being replaced by 1; the later, coarser rules are never
consulted. -/
theorem claim_C2_mixed_fraction_rule :
    ∀ (t : String) (g1 g2 g3 : List Char),
      findMixed (Appender.preprocessSize t) = some (g1, g2, g3) →
      Appender.parse_acres (some t) =
        some ((digitsToNat g1 : ℚ) + (digitsToNat g2 : ℚ) /
          (if digitsToNat g3 = 0 then (1 : ℚ) else (digitsToNat g3 : ℚ))) :=
  fun t g1 g2 g3 h => parse_acres_mixed t g1 g2 g3 h

/-- Witness for C2 at the concrete input "1 3/0 acres", exercising the
zero-denominator guard: the result is 1 + 3/1 = 4. -/
theorem claim_C2_mixed_fraction_rule_witness :
    Appender.parse_acres (some "1 3/0 acres") =
      some ((digitsToNat "1".data : ℚ) + (digitsToNat "3".data : ℚ) /
        (if digitsToNat "0".data = 0 then (1 : ℚ) else (digitsToNat "0".data : ℚ)))
  ∧ Appender.parse_acres (some "1 3/0 acres") = some (4 : ℚ) := by
  have h := claim_C2_mixed_fraction_rule "1 3/0 acres" "1".data "3".data "0".data (by decide)
  refine ⟨h, ?_⟩
  rw [h]
  simp [digitsToNat]
  norm_num

/-- C3: `parse_price_to_int` strips every non-digit character and parses the
remaining digit run as an integer-valued amount; "£59,000" yields 59000, and
an input with no digit (or a missing value) yields `None`. -/
theorem claim_C3_price_to_int :
    MapWoodlands.parse_price_to_int (some "£59,000") = some (59000 : ℚ)
  ∧ MapWoodlands.parse_price_to_int none = none
  ∧ (∀ s : String, (∀ c ∈ s.data, c.isDigit = false) →
      MapWoodlands.parse_price_to_int (some s) = none)
  ∧ (∀ s : String, s.data.filter Char.isDigit ≠ [] →
      MapWoodlands.parse_price_to_int (some s) =
        some ((digitsToNat (s.data.filter Char.isDigit) : ℚ))) := by
  refine ⟨?_, rfl, ?_, ?_⟩
  · have hf : "£59,000".data.filter Char.isDigit = "59000".data := by decide
    simp only [MapWoodlands.parse_price_to_int, hf]
    simp [digitsToNat]
  · intro s h
    have hf : s.data.filter Char.isDigit = [] := by
      rw [List.filter_eq_nil_iff]
      intro a ha
      simp [h a ha]
    simp [MapWoodlands.parse_price_to_int, hf]
  · intro s h
    simp only [MapWoodlands.parse_price_to_int]
    rw [if_neg (fun hh => h (List.isEmpty_iff.mp hh))]

/-- Witness for C3 at the concrete input "£59,000". -/
theorem claim_C3_price_to_int_witness :
    MapWoodlands.parse_price_to_int (some "£59,000") =
      some ((digitsToNat ("£59,000".data.filter Char.isDigit) : ℚ)) :=
  claim_C3_price_to_int.2.2.2 "£59,000" (by decide)

/-- C10 counterexample: the two acreage parsers are not extensionally equal;
they differ on "1 3/4 acres" (1.75 vs 1.0). -/
theorem claim_C10_counterexample :
    ¬ ∀ s : Option String, Appender.parse_acres s = MapWoodlands.parse_acres s := by
  intro hall
  have h1 : Appender.parse_acres (some "1 3/4 acres") = some (1.75 : ℚ) := by
    rw [parse_acres_mixed _ "1".data "3".data "4".data (by decide)]
    simp [digitsToNat]
    norm_num
  have h2 : MapWoodlands.parse_acres (some "1 3/4 acres") = some (1 : ℚ) := by
    rw [parse_acres_dash_base _ "1".data [] none (by decide)]
    simp [numVal, digitsToNat, Option.elim]
  have h := hall (some "1 3/4 acres")
  rw [h1, h2] at h
  have : (1.75 : ℚ) = 1 := Option.some.inj h
  norm_num at this

/-- C10 (amended): the two acreage parsers agree on missing input and on the
spec's examples "about 2 ½ acres", "" and "over 3 acres", but they are not
equivalent: on an ASCII mixed fraction such as "1 3/4 acres" the normalizer
(appender.py) returns 1.75 while the dashboard fallback (map_woodlands.py),
which lacks the mixed-fraction rule, returns only the leading number 1.0. -/
theorem claim_C10_amended :
    Appender.parse_acres none = MapWoodlands.parse_acres none
  ∧ Appender.parse_acres (some "about 2 ½ acres")
      = MapWoodlands.parse_acres (some "about 2 ½ acres")
  ∧ Appender.parse_acres (some "") = MapWoodlands.parse_acres (some "")
  ∧ Appender.parse_acres (some "over 3 acres")
      = MapWoodlands.parse_acres (some "over 3 acres")
  ∧ Appender.parse_acres (some "1 3/4 acres") = some (1.75 : ℚ)
  ∧ MapWoodlands.parse_acres (some "1 3/4 acres") = some (1 : ℚ) := by
  refine ⟨rfl, ?_, by decide, ?_, ?_, ?_⟩
  · rw [parse_acres_base _ "2".data [] (some "5".data) (by decide) (by decide),
      parse_acres_dash_base _ "2".data [] (some "5".data) (by decide)]
  · rw [parse_acres_base _ "3".data [] none (by decide) (by decide),
      parse_acres_dash_base _ "3".data [] none (by decide)]
  · rw [parse_acres_mixed _ "1".data "3".data "4".data (by decide)]
    simp [digitsToNat]
    norm_num
  · rw [parse_acres_dash_base _ "1".data [] none (by decide)]
    simp [numVal, digitsToNat, Option.elim]

/-- A string whose lowercase form starts with "gps coordinates" is nonempty. -/
lemma startsWithGps_ne_nil {t : String} (h : Locations.startsWithGps t = true) :
    t.data ≠ [] := by
  intro hnil
  unfold Locations.startsWithGps at h
  rw [hnil] at h
  simp only [List.map_nil] at h
  have hfalse : "gps coordinates".data.isPrefixOf ([] : List Char) = false := by decide
  rw [hfalse] at h
  exact Bool.false_ne_true h

/-- C4: the GPS extractor restricts its search to the first fragment starting
with "gps coordinates" (case-insensitively) when one exists, otherwise to the
whole page text; on "GPS coordinates: 51.7061, -0.240244" it returns that raw
text with latitude 51.7061 and longitude -0.240244; and when no signed
decimal pair occurs in the search space, both coordinates are `none` — never
zero or fabricated. -/
theorem claim_C4_gps_extraction :
    Locations.extract_gps ["Freehold", "GPS coordinates: 51.7061, -0.240244"] "page"
      = ("GPS coordinates: 51.7061, -0.240244", some (51.7061 : ℚ), some (-0.240244 : ℚ))
  ∧ (∀ (lis : List String) (text t : String),
      lis.find? Locations.startsWithGps = some t →
      Locations.gpsSearchSpace lis text = t)
  ∧ (∀ (lis : List String) (text : String),
      lis.find? Locations.startsWithGps = none →
      Locations.gpsSearchSpace lis text = text)
  ∧ (∀ (lis : List String) (text : String),
      findCoordPair (Locations.gpsSearchSpace lis text).data = none →
      Locations.extract_gps lis text
        = ((lis.find? Locations.startsWithGps).getD "", none, none)) := by
  refine ⟨?_, ?_, ?_, ?_⟩
  · have h : findCoordPair
        (Locations.gpsSearchSpace
          ["Freehold", "GPS coordinates: 51.7061, -0.240244"] "page").data
        = some ((false, "51".data, "7061".data), (true, "0".data, "240244".data)) := by
      decide
    have hf : ((["Freehold", "GPS coordinates: 51.7061, -0.240244"] :
        List String).find? Locations.startsWithGps).getD ""
        = "GPS coordinates: 51.7061, -0.240244" := by decide
    unfold Locations.extract_gps
    rw [h, hf]
    simp only [Prod.mk.injEq]
    refine ⟨trivial, ?_, ?_⟩
    · simp [signedVal, numVal, digitsToNat]
      norm_num
    · simp [signedVal, numVal, digitsToNat]
      norm_num
  · intro lis text t h
    have hne := startsWithGps_ne_nil (List.find?_some h)
    unfold Locations.gpsSearchSpace
    rw [h]
    simp [Option.getD, hne]
  · intro lis text h
    unfold Locations.gpsSearchSpace
    rw [h]
    simp [Option.getD]
  · intro lis text h
    unfold Locations.extract_gps
    rw [h]

/-- Witness for C4: the search-space restriction and the no-pair case at
concrete inputs. -/
theorem claim_C4_gps_extraction_witness :
    Locations.gpsSearchSpace ["GPS coordinates: 1.5, 2.5"] "p" = "GPS coordinates: 1.5, 2.5"
  ∧ Locations.gpsSearchSpace [] "p" = "p"
  ∧ Locations.extract_gps [] "no coordinates here"
      = ((List.find? Locations.startsWithGps []).getD "", none, none) :=
  ⟨claim_C4_gps_extraction.2.1 ["GPS coordinates: 1.5, 2.5"] "p"
      "GPS coordinates: 1.5, 2.5" (by decide),
   claim_C4_gps_extraction.2.2.1 [] "p" (by decide),
   claim_C4_gps_extraction.2.2.2 [] "no coordinates here" (by decide)⟩

/-- C5: the acres-to-square-metres conversion multiplies by the fixed
constant 4046.8564224; the square-root column is the square root of the m²
value when present; and an absent acres value propagates to absent m² and
absent √m², never zero. -/
theorem claim_C5_area_conversion :
    Appender.Size_m2 (some 1) = some (4046.8564224 : ℚ)
  ∧ (∀ a : ℚ, Appender.Size_m2 (some a) = some (a * (4046.8564224 : ℚ)))
  ∧ Appender.Size_m2 none = none
  ∧ (∀ q : ℚ, Appender.Size_m2_sqrt (some q) = some (Real.sqrt (q : ℝ)))
  ∧ Appender.Size_m2_sqrt none = none
  ∧ Appender.Size_m2_sqrt (Appender.Size_m2 none) = none := by
  refine ⟨?_, fun a => rfl, rfl, fun q => rfl, rfl, rfl⟩
  show some ((1 : ℚ) * Appender.ACRE_TO_M2) = some (4046.8564224 : ℚ)
  rw [one_mul]
  rfl

/-- C6: the haversine distance (Earth radius 3958.7613 miles, inputs in
degrees) from a point to itself is 0, and the distance is symmetric. -/
theorem claim_C6_haversine_self_symm :
    (∀ lat lon : ℝ, MapWoodlands.haversine_miles lat lon lat lon = 0)
  ∧ (∀ lat1 lon1 lat2 lon2 : ℝ,
      MapWoodlands.haversine_miles lat1 lon1 lat2 lon2
        = MapWoodlands.haversine_miles lat2 lon2 lat1 lon1) := by
  constructor
  · intro lat lon
    simp [MapWoodlands.haversine_miles, MapWoodlands.radiansR]
  · intro lat1 lon1 lat2 lon2
    have key : ∀ a b : ℝ,
        Real.sin (MapWoodlands.radiansR (a - b) / 2) ^ 2
          = Real.sin (MapWoodlands.radiansR (b - a) / 2) ^ 2 := by
      intro a b
      have h : MapWoodlands.radiansR (a - b) / 2
          = -(MapWoodlands.radiansR (b - a) / 2) := by
        unfold MapWoodlands.radiansR
        ring
      rw [h, Real.sin_neg, neg_sq]
    unfold MapWoodlands.haversine_miles
    rw [key lat2 lat1, key lon2 lon1,
      mul_comm (Real.cos (MapWoodlands.radiansR lat1))
        (Real.cos (MapWoodlands.radiansR lat2))]

attribute [irreducible] MapWoodlands.haversine_miles

/-- The accumulator loop computes a `foldl min` once seeded. -/
lemma minCityLoop_some (lat lon : ℝ) :
    ∀ (cities : List (ℝ × ℝ)) (m0 : ℝ),
      MapWoodlands.minCityLoop lat lon cities (some m0)
        = some ((cities.map
            (fun c => MapWoodlands.haversine_miles lat lon c.1 c.2)).foldl min m0) := by
  intro cities
  induction cities with
  | nil => intro m0; rfl
  | cons c rest ih =>
    intro m0
    show MapWoodlands.minCityLoop lat lon rest
        (if MapWoodlands.haversine_miles lat lon c.1 c.2 < m0
         then some (MapWoodlands.haversine_miles lat lon c.1 c.2) else some m0) = _
    have hmin : (if MapWoodlands.haversine_miles lat lon c.1 c.2 < m0
         then some (MapWoodlands.haversine_miles lat lon c.1 c.2) else some m0)
        = some (min m0 (MapWoodlands.haversine_miles lat lon c.1 c.2)) := by
      rcases le_or_lt m0 (MapWoodlands.haversine_miles lat lon c.1 c.2) with hle | hlt
      · rw [if_neg (not_lt.mpr hle), min_eq_left hle]
      · rw [if_pos hlt, min_eq_right (le_of_lt hlt)]
    rw [hmin, ih]
    simp [List.foldl_cons]

lemma foldl_min_le_init : ∀ (l : List ℝ) (a : ℝ), l.foldl min a ≤ a := by
  intro l
  induction l with
  | nil => intro a; exact le_refl a
  | cons b l ih => intro a; exact le_trans (ih (min a b)) (min_le_left a b)

lemma foldl_min_le_mem : ∀ (l : List ℝ) (a x : ℝ), x ∈ l → l.foldl min a ≤ x := by
  intro l
  induction l with
  | nil => intro a x hx; cases hx
  | cons b l ih =>
    intro a x hx
    rcases List.mem_cons.mp hx with rfl | hx
    · exact le_trans (foldl_min_le_init l (min a x)) (min_le_right a x)
    · exact ih (min a b) x hx

lemma foldl_min_attained : ∀ (l : List ℝ) (a : ℝ),
    l.foldl min a = a ∨ l.foldl min a ∈ l := by
  intro l
  induction l with
  | nil => intro a; exact Or.inl rfl
  | cons b l ih =>
    intro a
    rcases ih (min a b) with h | h
    · rcases min_choice a b with hm | hm
      · exact Or.inl (by rw [List.foldl_cons, h, hm])
      · refine Or.inr ?_
        rw [List.foldl_cons, h, hm]
        exact List.mem_cons_self b l
    · exact Or.inr (List.mem_cons_of_mem b h)

/-- C7: for a listing with coordinates, `MinCityMiles` is exactly the minimum
over the reference city points of the haversine distance from the listing to
the city (a lower bound on all of them, attained at some city), and it is
`none` exactly when the reference city set is empty. -/
theorem claim_C7_min_city_distance :
    ∀ (lat lon : ℝ) (cities : List (ℝ × ℝ)),
      (MapWoodlands.annotate_min_distance_to_cities lat lon cities = none ↔ cities = [])
    ∧ (∀ m : ℝ, MapWoodlands.annotate_min_distance_to_cities lat lon cities = some m →
        (∀ c ∈ cities, m ≤ MapWoodlands.haversine_miles lat lon c.1 c.2)
      ∧ (∃ c ∈ cities, MapWoodlands.haversine_miles lat lon c.1 c.2 = m)) := by
  intro lat lon cities
  cases cities with
  | nil =>
    refine ⟨by simp [MapWoodlands.annotate_min_distance_to_cities], ?_⟩
    intro m hm
    simp [MapWoodlands.annotate_min_distance_to_cities] at hm
  | cons c rest =>
    have hmain : MapWoodlands.annotate_min_distance_to_cities lat lon (c :: rest)
        = some ((rest.map
            (fun p => MapWoodlands.haversine_miles lat lon p.1 p.2)).foldl
              min (MapWoodlands.haversine_miles lat lon c.1 c.2)) := by
      show MapWoodlands.minCityLoop lat lon rest
          (some (MapWoodlands.haversine_miles lat lon c.1 c.2)) = _
      exact minCityLoop_some lat lon rest _
    constructor
    · rw [hmain]
      simp
    · intro m hm
      rw [hmain] at hm
      have hm' := Option.some.inj hm
      constructor
      · intro x hx
        rcases List.mem_cons.mp hx with rfl | hx
        · rw [← hm']
          exact foldl_min_le_init _ _
        · rw [← hm']
          exact foldl_min_le_mem _ _ _
            (List.mem_map_of_mem (fun p => MapWoodlands.haversine_miles lat lon p.1 p.2) hx)
      · rcases foldl_min_attained
            (rest.map (fun p => MapWoodlands.haversine_miles lat lon p.1 p.2))
            (MapWoodlands.haversine_miles lat lon c.1 c.2) with h | h
        · exact ⟨c, List.mem_cons_self c rest, h.symm.trans hm'⟩
        · rcases List.mem_map.mp h with ⟨p, hp, hpe⟩
          exact ⟨p, List.mem_cons_of_mem c hp, hpe.trans hm'⟩

/-- Witness for C7: a single city at the site's own position; the annotated
minimum is some value bounded by and attained at that city. -/
theorem claim_C7_min_city_distance_witness :
    (∀ c ∈ [((0 : ℝ), (0 : ℝ))],
       MapWoodlands.haversine_miles 0 0 0 0 ≤ MapWoodlands.haversine_miles 0 0 c.1 c.2)
  ∧ (∃ c ∈ [((0 : ℝ), (0 : ℝ))],
       MapWoodlands.haversine_miles 0 0 c.1 c.2 = MapWoodlands.haversine_miles 0 0 0 0) :=
  (claim_C7_min_city_distance 0 0 [((0 : ℝ), (0 : ℝ))]).2
    (MapWoodlands.haversine_miles 0 0 0 0) rfl

/-- Invariant of the per-page link loop: if the accumulated record list has
no duplicate URLs and every recorded URL is in `seen`, the same holds after
processing a page's links. -/
lemma processLinks_inv (ok : String → Bool) :
    ∀ (links seen rows : List String),
      rows.Nodup → (∀ r ∈ rows, r ∈ seen) →
      ((Locations.processLinks ok links seen rows).2.Nodup
       ∧ (∀ r ∈ (Locations.processLinks ok links seen rows).2,
            r ∈ (Locations.processLinks ok links seen rows).1)) := by
  intro links
  induction links with
  | nil => intro seen rows h1 h2; exact ⟨h1, h2⟩
  | cons link rest ih =>
    intro seen rows h1 h2
    by_cases hmem : link ∈ seen
    · simp only [Locations.processLinks, if_pos hmem]
      exact ih seen rows h1 h2
    · simp only [Locations.processLinks, if_neg hmem]
      by_cases hok : ok link = true
      · rw [if_pos hok]
        refine ih (link :: seen) (rows ++ [link]) ?_ ?_
        · have hnotin : link ∉ rows := fun hin => hmem (h2 link hin)
          simp [List.nodup_append, h1, hnotin]
        · intro r hr
          rcases List.mem_append.mp hr with hr | hr
          · exact List.mem_cons_of_mem _ (h2 r hr)
          · rw [List.mem_singleton.mp hr]
            exact List.mem_cons_self _ _
      · rw [if_neg hok]
        refine ih (link :: seen) rows h1 ?_
        intro r hr
        exact List.mem_cons_of_mem _ (h2 r hr)

lemma crawlPages_nodup (ok : String → Bool) :
    ∀ (pages : List Locations.SearchPage) (seen rows : List String),
      rows.Nodup → (∀ r ∈ rows, r ∈ seen) →
      (Locations.crawlPages ok pages seen rows).Nodup := by
  intro pages
  induction pages with
  | nil => intro seen rows h1 _; exact h1
  | cons p rest ih =>
    intro seen rows h1 h2
    by_cases h404 : Locations.is_404 p.status p.h1 = true
    · simp only [Locations.crawlPages, if_pos h404]
      exact h1
    · simp only [Locations.crawlPages, if_neg h404]
      by_cases hempty : p.links.isEmpty = true
      · rw [if_pos hempty]
        exact h1
      · rw [if_neg hempty]
        have hinv := processLinks_inv ok p.links seen rows h1 h2
        exact ih _ _ hinv.1 hinv.2

/-- C8: URL is the deduplication key of the crawl: the output record list
never contains two records with the same URL (a record is created at most
once per unique URL and never updated afterwards), and any URL that does
appear in the output appears exactly once — in particular a detail-page URL
fed to the loop more than once yields exactly one record. -/
theorem claim_C8_url_dedup :
    ∀ (ok : String → Bool) (pages : List Locations.SearchPage),
      (Locations.crawl ok pages).Nodup
    ∧ (∀ u : String, u ∈ Locations.crawl ok pages →
        (Locations.crawl ok pages).count u = 1) := by
  intro ok pages
  have hnd : (Locations.crawl ok pages).Nodup :=
    crawlPages_nodup ok pages [] [] List.nodup_nil (by intro r hr; cases hr)
  refine ⟨hnd, ?_⟩
  intro u hu
  exact List.count_eq_one_of_mem hnd hu

/-- Witness for C8: a page listing the same URL twice produces exactly one
record for it. -/
theorem claim_C8_url_dedup_witness :
    (Locations.crawl (fun _ => true) [⟨200, none, ["u", "u"]⟩]).count "u" = 1 :=
  (claim_C8_url_dedup (fun _ => true) [⟨200, none, ["u", "u"]⟩]).2 "u" (by decide)

/-- Stopping lemma: a 404-flagged page ends the crawl with whatever rows were
accumulated, regardless of the pages after it. -/
lemma crawlPages_stop (ok : String → Bool) (p : Locations.SearchPage)
    (rest : List Locations.SearchPage) (h : Locations.is_404 p.status p.h1 = true) :
    ∀ (pre : List Locations.SearchPage) (seen rows : List String),
      Locations.crawlPages ok (pre ++ p :: rest) seen rows
        = Locations.crawlPages ok pre seen rows := by
  intro pre
  induction pre with
  | nil =>
    intro seen rows
    simp only [List.nil_append, Locations.crawlPages, if_pos h]
  | cons q pre ih =>
    intro seen rows
    simp only [List.cons_append, Locations.crawlPages]
    split_ifs
    · rfl
    · rfl
    · exact ih _ _

/-- C9: a page is flagged not-found when its HTTP status is 404 or its first
heading contains "error 404" case-insensitively; such a page terminates the
pagination loop normally, and no records from it or any later page are added
to the output. -/
theorem claim_C9_pagination_stop :
    (∀ h1 : Option String, Locations.is_404 404 h1 = true)
  ∧ (∀ (status : Nat) (t : String),
      containsSub "error 404".data (t.data.map Char.toLower) = true →
      Locations.is_404 status (some t) = true)
  ∧ (∀ (ok : String → Bool) (pre : List Locations.SearchPage)
      (p : Locations.SearchPage) (rest : List Locations.SearchPage),
      Locations.is_404 p.status p.h1 = true →
      Locations.crawl ok (pre ++ p :: rest) = Locations.crawl ok pre) := by
  refine ⟨?_, ?_, ?_⟩
  · intro h1
    simp [Locations.is_404]
  · intro status t h
    unfold Locations.is_404
    by_cases hs : status = 404
    · rw [if_pos hs]
    · rw [if_neg hs]
      exact h
  · intro ok pre p rest h
    exact crawlPages_stop ok p rest h pre [] []

/-- Witness for C9: a heading-flagged 404 page after one good page stops the
crawl; the pages after it contribute nothing. -/
theorem claim_C9_pagination_stop_witness :
    Locations.is_404 404 none = true
  ∧ Locations.is_404 200 (some "Error 404 - Page Not Found") = true
  ∧ Locations.crawl (fun _ => true)
      ([⟨200, none, ["a"]⟩] ++ ⟨200, some "Error 404 - Page Not Found", ["b"]⟩ ::
        [⟨200, none, ["c"]⟩])
      = Locations.crawl (fun _ => true) [⟨200, none, ["a"]⟩] :=
  ⟨claim_C9_pagination_stop.1 none,
   claim_C9_pagination_stop.2.1 200 "Error 404 - Page Not Found" (by decide),
   claim_C9_pagination_stop.2.2 (fun _ => true) [⟨200, none, ["a"]⟩]
     ⟨200, some "Error 404 - Page Not Found", ["b"]⟩ [⟨200, none, ["c"]⟩] (by decide)⟩
